import Mathlib

/-!
Verification of the WithSecure Elements API client repository.

The definitions below are shallow embeddings of the Python source files:
the token lifecycle of withsecure_client.py and async_withsecure_client.py,
the pagination loops get_all_devices and get_all_software_updates, the
single-device error dispatch of main.py, and the device/update join of
main.py get_statistics and monitor_updates.analyze_update_status.
Time is modelled in integer seconds and optional JSON fields as Option.
-/

namespace WithSecure

/-- Client token state: the fields access_token and token_expiry shared by
WithSecureClient and AsyncWithSecureClient, both initialised to None by
the constructor. token_expiry holds an absolute timestamp in seconds. -/
structure ClientState where
  access_token : Option String
  token_expiry : Option Int
deriving DecidableEq

/-- Result of the HTTP token exchange inside authenticate: either the parsed
2xx JSON body (access_token required, expires_in optional), or a non-2xx
status, on which response.raise_for_status raises before the body is read. -/
inductive AuthResult where
  | ok (access_token : String) (expires_in : Option Int)
  | httpError (status : Nat)

/-- Embedding of authenticate (withsecure_client.py lines 60-81 and
async_withsecure_client.py lines 59-70): on a 2xx response the client
stores the returned access_token and sets token_expiry = now + expires_in,
with expires_in defaulting to 3600 when the field is absent; on a non-2xx
response raise_for_status raises before either assignment runs, so the
state is returned unchanged. -/
def authenticate (st : ClientState) (now : Int) (r : AuthResult) : ClientState :=
  match r with
  | .httpError _ => st
  | .ok tok e => { access_token := some tok, token_expiry := some (now + e.getD 3600) }

/-- Embedding of is_token_valid (withsecure_client.py lines 83-88 and
async_withsecure_client.py lines 72-77): False when access_token is falsy
(None or the empty string, Python truthiness) or token_expiry is None,
otherwise the comparison now < token_expiry - 60 with the 60 second
safety margin. -/
def is_token_valid (st : ClientState) (now : Int) : Bool :=
  match st.access_token, st.token_expiry with
  | some tok, some e => if tok = "" then false else decide (now < e - 60)
  | _, _ => false

/-- C1, counterexample: the claim as stated fails on the code. First
conjunct: a state whose access_token is the empty string and whose expiry
is far in the future is reported invalid, although an access token and an
expiry timestamp both exist and the current time is strictly before
expires_at - 60. Second conjunct: a token obtained with expires_in = 60
is invalid at the very instant it was issued, although the claim says it
must be true immediately after authentication for every expires_in = E. -/
theorem C1_counterexample :
    is_token_valid { access_token := some "", token_expiry := some 1000000 } 0 = false ∧
    is_token_valid (authenticate { access_token := none, token_expiry := none } 0
      (.ok "tok" (some 60))) 0 = false := by
  exact ⟨rfl, rfl⟩

/-- C1, amended: is_token_valid returns true iff a non-empty access token
and an expiry timestamp are both stored and the current time is strictly
before expires_at - 60 seconds; for a non-empty token obtained with
expires_in = E where 60 < E, it is true immediately after authentication,
and for any expires_in it is false at (and after) the instant
issued_at + E - 60, the boundary instant itself counting as invalid. -/
theorem C1_token_validity :
    (∀ (st : ClientState) (now : Int),
      is_token_valid st now = true ↔
        ∃ tok e, st.access_token = some tok ∧ tok ≠ "" ∧
          st.token_expiry = some e ∧ now < e - 60) ∧
    (∀ (st : ClientState) (t0 E : Int) (tok : String), tok ≠ "" → 60 < E →
      is_token_valid (authenticate st t0 (.ok tok (some E))) t0 = true) ∧
    (∀ (st : ClientState) (t0 E now : Int) (tok : String), t0 + E - 60 ≤ now →
      is_token_valid (authenticate st t0 (.ok tok (some E))) now = false) := by
  refine ⟨?_, ?_, ?_⟩
  · intro st now
    cases hA : st.access_token with
    | none => simp [is_token_valid, hA]
    | some tok =>
      cases hE : st.token_expiry with
      | none => simp [is_token_valid, hA, hE]
      | some e =>
        by_cases htok : tok = ""
        · subst htok
          simp [is_token_valid, hA, hE]
        · simp [is_token_valid, hA, hE, htok]
  · intro st t0 E tok htok hE
    simp [authenticate, is_token_valid, htok]
    omega
  · intro st t0 E now tok h
    by_cases htok : tok = ""
    · simp [authenticate, is_token_valid, htok]
    · simp [authenticate, is_token_valid, htok]
      omega

/-- C1, witness: the amended theorem instantiated at a concrete
authentication. The token "tok" with expires_in = 3600 issued at time 0
is valid at time 0 and invalid at time 3540 = 0 + 3600 - 60. -/
theorem C1_token_validity_witness :
    is_token_valid (authenticate { access_token := none, token_expiry := none } 0
      (.ok "tok" (some 3600))) 0 = true ∧
    is_token_valid (authenticate { access_token := none, token_expiry := none } 0
      (.ok "tok" (some 3600))) 3540 = false :=
  ⟨C1_token_validity.2.1 _ 0 3600 "tok" (by decide) (by decide),
   C1_token_validity.2.2 _ 0 3600 3540 "tok" (by decide)⟩

/-- C7: on every successful authentication the client stores the returned
access_token and sets the expiry timestamp to now + expires_in seconds,
using 3600 seconds when the response omits the expires_in field. -/
theorem C7_token_expiry_computation :
    ∀ (st : ClientState) (now : Int) (tok : String) (e : Int),
      (authenticate st now (.ok tok (some e))).access_token = some tok ∧
      (authenticate st now (.ok tok (some e))).token_expiry = some (now + e) ∧
      (authenticate st now (.ok tok none)).access_token = some tok ∧
      (authenticate st now (.ok tok none)).token_expiry = some (now + 3600) :=
  fun _ _ _ _ => ⟨rfl, rfl, rfl, rfl⟩

/-- C9: a failed token exchange (non-2xx status, where raise_for_status
raises before the response body is parsed) leaves both stored fields
unchanged, so a previously stored token, valid or not, survives a failed
refresh attempt intact. -/
theorem C9_auth_atomicity :
    ∀ (st : ClientState) (now : Int) (status : Nat),
      (authenticate st now (.httpError status)).access_token = st.access_token ∧
      (authenticate st now (.httpError status)).token_expiry = st.token_expiry :=
  fun _ _ _ => ⟨rfl, rfl⟩

/-- One page of a paginated upstream response, as read by the drain loops:
response.get("items", []) (items absent means the empty list) and
response.get("nextAnchor") (absent means None). -/
structure Page (α : Type) where
  items : Option (List α)
  nextAnchor : Option String
deriving DecidableEq

/-- Python truthiness of an optional string: None and the empty string are
falsy, every other string is truthy. This is the test performed by
`if not next_anchor` in the drain loops and by `if anchor` in the page
request builders. -/
def pyTruthy : Option String → Bool
  | none => false
  | some s => !s.isEmpty

/-- Embedding of the drain loop body shared by get_all_devices
(withsecure_client.py lines 131-156, async_withsecure_client.py lines
118-139) and get_all_software_updates (lines 185-209 and 183-203): the
server is modelled as the sequence of pages it returns to the successive
requests. Given the anchor for the next request and the remaining server
pages, the loop extends the accumulator with the items of the received
page, stops when the received nextAnchor is falsy, and otherwise
continues with nextAnchor as the next anchor. The result is: all
collected items in received order, the number of requests issued, and
the anchors passed to the successive requests. none is returned when the
loop requests a page beyond the modelled server sequence. -/
def drainFrom {α : Type} : Option String → List (Page α) →
    Option (List α × Nat × List (Option String))
  | _, [] => none
  | a, p :: rest =>
    if pyTruthy p.nextAnchor then
      match drainFrom p.nextAnchor rest with
      | some (items, n, anchors) => some (p.items.getD [] ++ items, n + 1, a :: anchors)
      | none => none
    else
      some (p.items.getD [], 1, [a])

/-- Embedding of get_all_devices / get_all_software_updates: the drain
starts with anchor = None. -/
def get_all_pages {α : Type} (pages : List (Page α)) :
    Option (List α × Nat × List (Option String)) :=
  drainFrom none pages

/-- Embedding of the query parameters built by get_devices,
get_software_updates and get_security_events (withsecure_client.py lines
115-119, async_withsecure_client.py lines 105-109): params = {"limit":
limit}, and the anchor parameter is added only when anchor is truthy. -/
def get_devices_params (anchor : Option String) (limit : Int) : List (String × String) :=
  let ps := [("limit", toString limit)]
  if pyTruthy anchor then ps ++ [("anchor", anchor.getD "")] else ps

/-- Helper: a drain over pages whose nextAnchor values are all truthy except
for the final page returns the concatenation of every items field, issues
one request per page, and passes each previous nextAnchor as the next
anchor. -/
theorem drainFrom_spec {α : Type} :
    ∀ (ps : List (Page α)) (last : Page α) (a : Option String),
      (∀ p ∈ ps, pyTruthy p.nextAnchor = true) →
      pyTruthy last.nextAnchor = false →
      drainFrom a (ps ++ [last]) =
        some (((ps ++ [last]).map (fun p => p.items.getD [])).flatten,
          ps.length + 1, a :: ps.map (fun p => p.nextAnchor)) := by
  intro ps
  induction ps with
  | nil =>
    intro last a _ hlast
    simp [drainFrom, hlast]
  | cons p ps ih =>
    intro last a hall hlast
    have hp : pyTruthy p.nextAnchor = true := hall p (List.mem_cons_self p ps)
    have hrest : ∀ q ∈ ps, pyTruthy q.nextAnchor = true :=
      fun q hq => hall q (List.mem_cons_of_mem p hq)
    simp only [List.cons_append, drainFrom, hp, if_true, List.append_eq]
    rw [ih last p.nextAnchor hrest hlast]
    simp
/-- C2, counterexample: the claim as stated fails on the code. For the
server sequence page1 = (["a"], nextAnchor "") and page2 = (["b"], no
nextAnchor), the first page whose nextAnchor is absent or null is page2,
so the claim predicts 2 requests returning ["a", "b"]; the loop however
tests `if not next_anchor`, treats the empty-string cursor of page1 as
terminal, and stops after 1 request with ["a"]. -/
theorem C2_counterexample :
    get_all_pages [Page.mk (some ["a"]) (some ""), Page.mk (some ["b"]) none] =
      some (["a"], 1, [none]) ∧
    get_all_pages [Page.mk (some ["a"]) (some ""), Page.mk (some ["b"]) none] ≠
      some (["a", "b"], 2, [none, some ""]) := by
  exact ⟨rfl, by decide⟩

/-- C2, amended: for every sequence of pages returned by the server,
get_all_devices (and get_all_software_updates) issues one request per
page, passing the nextAnchor of the previous page as the cursor,
concatenates the items of each page in received order, and stops after
the first page whose nextAnchor is falsy, that is absent, null or the
empty string; for the stub sequence it returns ["a","b","c","d"] using
exactly 3 requests. -/
theorem C2_pagination_drain :
    (∀ (ps : List (Page String)) (last : Page String),
      (∀ p ∈ ps, pyTruthy p.nextAnchor = true) →
      pyTruthy last.nextAnchor = false →
      get_all_pages (ps ++ [last]) =
        some (((ps ++ [last]).map (fun p => p.items.getD [])).flatten,
          ps.length + 1, none :: ps.map (fun p => p.nextAnchor))) ∧
    get_all_pages [Page.mk (some ["a", "b"]) (some "cursor1"),
        Page.mk (some ["c"]) (some "cursor2"), Page.mk (some ["d"]) none] =
      some (["a", "b", "c", "d"], 3, [none, some "cursor1", some "cursor2"]) :=
  ⟨fun ps last hall hlast => drainFrom_spec ps last none hall hlast, by decide⟩

/-- C2, witness: the amended drain theorem instantiated at the concrete
two-page server (["x"] with cursor "c1", then ["y"] with no cursor). -/
theorem C2_pagination_drain_witness :
    get_all_pages ([Page.mk (some ["x"]) (some "c1")] ++ [Page.mk (some ["y"]) none]) =
      some ((([Page.mk (some ["x"]) (some "c1")] ++ [Page.mk (some ["y"]) none]).map
          (fun p => p.items.getD [])).flatten,
        [Page.mk (some ["x"]) (some "c1")].length + 1,
        none :: [Page.mk (some ["x"]) (some "c1")].map (fun p => p.nextAnchor)) :=
  C2_pagination_drain.1 [Page.mk (some ["x"]) (some "c1")] (Page.mk (some ["y"]) none)
    (by decide) (by decide)

/-- C8: when the first page has an empty items list or no items field at
all, together with a null or absent cursor, the drain returns an empty
list after a single request and does not fail. -/
theorem C8_empty_collection :
    ∀ (p : Page String), (p.items = none ∨ p.items = some []) → p.nextAnchor = none →
      get_all_pages [p] = some ([], 1, [none]) := by
  intro p hitems hanchor
  rcases hitems with h | h <;> simp [get_all_pages, drainFrom, pyTruthy, hanchor, h]

/-- C8, witness: the empty-collection theorem at the concrete first page
with no items field and no nextAnchor field. -/
theorem C8_empty_collection_witness :
    get_all_pages [(Page.mk none none : Page String)] = some ([], 1, [none]) :=
  C8_empty_collection (Page.mk none none) (Or.inl rfl) rfl

/-- C10: the drain loop stops when the received nextAnchor is any falsy
value, the empty string as well as null or absent, not only when it is
absent or null; and a page request whose anchor argument is falsy, the
empty string included, omits the anchor query parameter entirely, so an
empty-string cursor is never sent upstream. -/
theorem C10_falsy_cursor_terminal :
    (∀ (a : Option String) (p : Page String) (rest : List (Page String)),
      pyTruthy p.nextAnchor = false →
      drainFrom a (p :: rest) = some (p.items.getD [], 1, [a])) ∧
    (∀ (a : Option String) (limit : Int), pyTruthy a = false →
      get_devices_params a limit = [("limit", toString limit)]) := by
  constructor
  · intro a p rest h
    simp [drainFrom, h]
  · intro a limit h
    simp [get_devices_params, h]

/-- C10, witness: the falsy-cursor theorem at the empty-string cursor: a
first page carrying nextAnchor = "" ends the drain even though a further
page exists, and a request with anchor = "" sends only the limit
parameter. -/
theorem C10_falsy_cursor_terminal_witness :
    drainFrom (none : Option String)
        [Page.mk (some ["x"]) (some ""), Page.mk (some ["y"]) none] =
      some (["x"], 1, [none]) ∧
    get_devices_params (some "") 100 = [("limit", "100")] :=
  ⟨C10_falsy_cursor_terminal.1 none (Page.mk (some ["x"]) (some ""))
      [Page.mk (some ["y"]) none] (by decide),
    C10_falsy_cursor_terminal.2 (some "") 100 (by decide)⟩

/-- Helper: Boolean test that the first character list occurs at the very
start of the second. -/
def startsWithL : List Char → List Char → Bool
  | [], _ => true
  | _ :: _, [] => false
  | c :: cs, d :: ds => c == d && startsWithL cs ds

/-- Helper: Boolean test that the first character list occurs somewhere
inside the second, the embedding of the Python substring test
`needle in haystack`. -/
def occursIn (needle : List Char) : List Char → Bool
  | [] => needle.isEmpty
  | c :: rest => startsWithL needle (c :: rest) || occursIn needle rest

/-- Embedding of the Python substring operator on strings. -/
def strContains (hay needle : String) : Bool :=
  occursIn needle.data hay.data

theorem startsWithL_self_append : ∀ (n m : List Char), startsWithL n (n ++ m) = true := by
  intro n
  induction n with
  | nil => intro m; rfl
  | cons c cs ih => intro m; simp [startsWithL, ih]

theorem occursIn_of_startsWithL :
    ∀ (n l : List Char), startsWithL n l = true → occursIn n l = true := by
  intro n l h
  cases l with
  | nil =>
    cases n with
    | nil => rfl
    | cons c cs => simp [startsWithL] at h
  | cons c rest =>
    rw [occursIn, h]
    rfl

theorem occursIn_pre_mid_suf :
    ∀ (pre n suf : List Char), occursIn n (pre ++ n ++ suf) = true := by
  intro pre
  induction pre with
  | nil =>
    intro n suf
    rw [List.nil_append]
    exact occursIn_of_startsWithL n (n ++ suf) (startsWithL_self_append n suf)
  | cons c pre ih =>
    intro n suf
    rw [List.cons_append, List.cons_append, occursIn, ← List.cons_append, ih]
    simp

/-- Base URL hard-coded as default in both client constructors. -/
def api_base_url : String := "https://api.connect.withsecure.com"

/-- URL of a single-device lookup, from get_device_by_id
(async_withsecure_client.py line 151). -/
def device_url (device_id : String) : String :=
  api_base_url ++ "/devices/v1/" ++ device_id

/-- Success test performed by httpx raise_for_status: only 2xx responses
pass, every other status raises an HTTPStatusError. -/
def is2xx (status : Nat) : Bool :=
  200 ≤ status && status < 300

/-- Stringified form of the HTTPStatusError raised by raise_for_status.
Modelled from the httpx library (not part of this repository): the
message embeds the numeric status code and the full request URL. -/
def http_error_str (status : Nat) (url : String) : String :=
  "HTTP error " ++ toString status ++ " for url " ++ url

/-- Embedding of the get_device endpoint handler (main.py lines 228-248):
get_device_by_id raises on a non-2xx upstream response, and the handler
maps the exception to a local 404 when the substring "404" occurs in
str(e), and to a local 500 otherwise. The result is the status code the
local API answers with (200 meaning success). -/
def get_device_route (upstream_status : Nat) (device_id : String) : Nat :=
  if is2xx upstream_status then 200
  else if strContains (http_error_str upstream_status (device_url device_id)) "404" then 404
  else 500

/-- C3, counterexample: the claim as stated fails on the code. An upstream
HTTP 500 for the device whose id is the string "404" must, per the claim,
fail with the generic ResourceError (local 500); the handler however
dispatches on the substring "404" inside str(e), the stringified error
embeds the request URL .../devices/v1/404, and the lookup is reported as
NotFoundError (local 404) instead. -/
theorem C3_counterexample :
    get_device_route 500 "404" = 404 ∧ get_device_route 500 "404" ≠ 500 := by
  exact ⟨by decide, by decide⟩

/-- C3, amended: a single-device lookup answering upstream 404 always fails
with NotFoundError (local 404, the status digits occur in the message);
an upstream non-2xx other than 404 fails with the generic ResourceError
(local 500) only provided the stringified error, which embeds the request
URL, does not contain the substring "404". The two failure kinds are
distinguished by message content, not by a typed error kind. -/
theorem C3_404_distinction :
    (∀ (device_id : String), get_device_route 404 device_id = 404) ∧
    (∀ (status : Nat) (device_id : String), is2xx status = false →
      strContains (http_error_str status (device_url device_id)) "404" = false →
      get_device_route status device_id = 500) := by
  constructor
  · intro device_id
    have hc : strContains (http_error_str 404 (device_url device_id)) "404" = true := by
      show occursIn "404".data
        ("HTTP error ".data ++ "404".data ++ (" for url ".data ++ (device_url device_id).data))
          = true
      exact occursIn_pre_mid_suf "HTTP error ".data "404".data
        (" for url ".data ++ (device_url device_id).data)
    simp [get_device_route, is2xx, hc]
  · intro status device_id h2 hc
    simp [get_device_route, h2, hc]

/-- C3, witness: upstream 404 on device "dev1" is answered with the local
404, and upstream 500 on device "abc" (whose URL does not contain the
substring "404") is answered with the local 500. -/
theorem C3_404_distinction_witness :
    get_device_route 404 "dev1" = 404 ∧ get_device_route 500 "abc" = 500 :=
  ⟨C3_404_distinction.1 "dev1", C3_404_distinction.2 500 "abc" (by decide) (by decide)⟩

/-- One entry of a pendingSoftwareUpdates list; only its title field is
read by the reporting code (with "Unknown" as default). -/
structure SoftwareUpdate where
  title : Option String
deriving DecidableEq

/-- One software-update record as returned by the software-updates
endpoint: deviceId is accessed with item["deviceId"] (required), the
pending list with item.get("pendingSoftwareUpdates", []). -/
structure UpdateRec where
  deviceId : String
  pendingSoftwareUpdates : List SoftwareUpdate
deriving DecidableEq

/-- One device record: id is required (models.py declares Device.id as a
required str), the other fields are read with .get defaults. -/
structure DeviceRec where
  id : String
  name : Option String
  platform : Option String
  online : Option Bool
deriving DecidableEq

/-- Classification buckets of models.py UpdateStatus. -/
inductive UpdateStatus where
  | up_to_date
  | pending
  | no_info
deriving DecidableEq

/-- Embedding of the dict comprehension
updates_by_device = item["deviceId"]: item for item in updates
(main.py line 380, monitor_updates.py line 25), looked up at key d:
insertion into a dict overwrites, so the last record with a given
deviceId wins. -/
def updates_by_device (updates : List UpdateRec) (d : String) : Option UpdateRec :=
  updates.foldl (fun acc u => if u.deviceId = d then some u else acc) none

/-- Embedding of the per-device classification of main.py get_statistics
(lines 406-424) and monitor_updates.analyze_update_status (lines 44-69):
a device with a matching update record is pending when the pending list
is non-empty and up_to_date when it is empty; a device without a
matching record is no_info. -/
def classify (updates : List UpdateRec) (d : DeviceRec) : UpdateStatus :=
  match updates_by_device updates d.id with
  | some u => if u.pendingSoftwareUpdates.isEmpty then .up_to_date else .pending
  | none => .no_info

/-- Number of devices falling into a given bucket, the value accumulated
into status_counts by the loop of main.py get_statistics. -/
def count_status (devices : List DeviceRec) (updates : List UpdateRec)
    (s : UpdateStatus) : Nat :=
  devices.countP (fun d => decide (classify updates d = s))

/-- Embedding of Python round(x, 2) restricted to its integer-scaled core:
rounds a rational to the nearest integer, ties to the even integer
(banker rounding, the Python 3 behaviour). Python computes on binary
floats; the model uses exact rationals. -/
def roundHalfEvenQ (r : ℚ) : ℤ :=
  let k := Int.fdiv r.num r.den
  let m := r.num - k * r.den
  if 2 * m < r.den then k
  else if (r.den : ℤ) < 2 * m then k + 1
  else if k % 2 = 0 then k else k + 1

/-- Embedding of Python round(x, 2): rounding to 2 decimal places. -/
def round2 (q : ℚ) : ℚ :=
  ((roundHalfEvenQ (q * 100) : ℤ) : ℚ) / 100

/-- Embedding of the percentage expression of main.py get_statistics
(lines 397 and 430): round((count / total * 100) if total > 0 else 0, 2). -/
def pct (count total : Nat) : ℚ :=
  round2 (if 0 < total then (count : ℚ) / (total : ℚ) * 100 else 0)

/-- Statistics entry for one update-status bucket (models.py
UpdateStatusStats). -/
structure UpdateStatusStats where
  status : String
  count : Nat
  percentage : ℚ

/-- Statistics entry for one platform bucket (models.py PlatformStats). -/
structure PlatformStats where
  platform : String
  count : Nat
  percentage : ℚ

/-- Embedding of the status_stats list built by main.py get_statistics
(lines 426-433); the dict status_counts has fixed insertion order
up_to_date, pending, no_info. -/
def status_stats (devices : List DeviceRec) (updates : List UpdateRec) :
    List UpdateStatusStats :=
  [⟨"up_to_date", count_status devices updates .up_to_date,
      pct (count_status devices updates .up_to_date) devices.length⟩,
    ⟨"pending", count_status devices updates .pending,
      pct (count_status devices updates .pending) devices.length⟩,
    ⟨"no_info", count_status devices updates .no_info,
      pct (count_status devices updates .no_info) devices.length⟩]

/-- Insertion-ordered counter update, the effect of
platform_counts[platform] = platform_counts.get(platform, 0) + 1. -/
def bump (counts : List (String × Nat)) (k : String) : List (String × Nat) :=
  match counts with
  | [] => [(k, 1)]
  | (k2, c) :: rest => if k2 = k then (k2, c + 1) :: rest else (k2, c) :: bump rest k

/-- Embedding of the platform_counts dict of main.py get_statistics
(lines 388-391), keyed by device.get("platform", "Unknown"). -/
def platform_counts (devices : List DeviceRec) : List (String × Nat) :=
  devices.foldl (fun cs d => bump cs (d.platform.getD "Unknown")) []

/-- Embedding of the platform_stats list of main.py get_statistics
(lines 393-400). -/
def platform_stats (devices : List DeviceRec) : List PlatformStats :=
  (platform_counts devices).map (fun pc => ⟨pc.1, pc.2, pct pc.2 devices.length⟩)

/-- Demo update list of the C4 stub: device "1" has an update record with
an empty pending list, device "2" one with a single pending update. -/
def demoUpdates : List UpdateRec :=
  [⟨"1", []⟩, ⟨"2", [⟨some "x"⟩]⟩]

/-- Demo device records of the C4 stub. -/
def demoDevice1 : DeviceRec := ⟨"1", none, none, none⟩

def demoDevice2 : DeviceRec := ⟨"2", none, none, none⟩

def demoDevice3 : DeviceRec := ⟨"3", none, none, none⟩

/-- C4: each device is classified into exactly one bucket after the
deviceId-to-record mapping is built: up_to_date exactly when a matching
record exists with an empty pending list, pending exactly when a
matching record exists with a non-empty pending list, no_info exactly
when no record matches; consequently the three bucket counts always sum
to the number of devices; and the stub instance classifies as claimed. -/
theorem C4_join_classification :
    (∀ (updates : List UpdateRec) (d : DeviceRec),
      (classify updates d = .up_to_date ↔
        ∃ u, updates_by_device updates d.id = some u ∧ u.pendingSoftwareUpdates = []) ∧
      (classify updates d = .pending ↔
        ∃ u, updates_by_device updates d.id = some u ∧ u.pendingSoftwareUpdates ≠ []) ∧
      (classify updates d = .no_info ↔ updates_by_device updates d.id = none)) ∧
    (∀ (devices : List DeviceRec) (updates : List UpdateRec),
      count_status devices updates .up_to_date + count_status devices updates .pending +
        count_status devices updates .no_info = devices.length) ∧
    (classify demoUpdates demoDevice1 = .up_to_date ∧
      classify demoUpdates demoDevice2 = .pending ∧
      classify demoUpdates demoDevice3 = .no_info) := by
  refine ⟨?_, ?_, by decide⟩
  · intro updates d
    cases h : updates_by_device updates d.id with
    | none => simp [classify, h]
    | some u =>
      cases hp : u.pendingSoftwareUpdates with
      | nil => simp [classify, h, hp]
      | cons a l => simp [classify, h, hp]
  · intro devices updates
    induction devices with
    | nil => rfl
    | cons d ds ih =>
      simp only [count_status, List.countP_cons] at ih ⊢
      cases hc : classify updates d <;> simp [hc] <;> omega

/-- C4, witness: the up_to_date characterisation applied to the stub
device "1", yielding its matching update record with empty pending
list. -/
theorem C4_join_classification_witness :
    ∃ u, updates_by_device demoUpdates demoDevice1.id = some u ∧
      u.pendingSoftwareUpdates = [] :=
  ((C4_join_classification.1 demoUpdates demoDevice1).1).mp (by decide)

theorem round2_zero : round2 0 = 0 := by
  have h0 : roundHalfEvenQ 0 = 0 := by
    unfold roundHalfEvenQ
    norm_num
  unfold round2
  rw [zero_mul, h0]
  norm_num

theorem pct_eq (c n : Nat) :
    pct c n = if 0 < n then round2 ((c : ℚ) / (n : ℚ) * 100) else 0 := by
  unfold pct
  by_cases h : 0 < n
  · rw [if_pos h, if_pos h]
  · rw [if_neg h, if_neg h, round2_zero]

/-- C5: every statistics bucket emitted by get_statistics carries
percentage = round2(count / total_devices * 100) when total_devices > 0
and percentage = 0 when total_devices = 0; in particular an empty device
collection yields 0 for every status bucket (and an empty platform list),
with no division by zero. -/
theorem C5_percentage_guard :
    (∀ (devices : List DeviceRec) (updates : List UpdateRec) (s : UpdateStatusStats),
      s ∈ status_stats devices updates →
      s.percentage = if 0 < devices.length
        then round2 ((s.count : ℚ) / (devices.length : ℚ) * 100) else 0) ∧
    (∀ (devices : List DeviceRec) (p : PlatformStats),
      p ∈ platform_stats devices →
      p.percentage = if 0 < devices.length
        then round2 ((p.count : ℚ) / (devices.length : ℚ) * 100) else 0) ∧
    (∀ (updates : List UpdateRec) (s : UpdateStatusStats),
      s ∈ status_stats [] updates → s.percentage = 0) ∧
    platform_stats [] = [] := by
  refine ⟨?_, ?_, ?_, rfl⟩
  · intro devices updates s hs
    have h3 := hs
    simp only [status_stats, List.mem_cons, List.not_mem_nil, or_false] at h3
    rcases h3 with rfl | rfl | rfl
    all_goals exact pct_eq _ _
  · intro devices p hp
    rcases List.mem_map.mp hp with ⟨pc, _, rfl⟩
    exact pct_eq _ _
  · intro updates s hs
    simp only [status_stats, List.mem_cons, List.not_mem_nil, or_false] at hs
    rcases hs with rfl | rfl | rfl
    all_goals
      rw [pct_eq]
      simp

/-- Device record used to instantiate the C5 witness. -/
def c5Device : DeviceRec := ⟨"d1", none, none, none⟩

/-- C5, witness: the guard theorem applied to the up_to_date bucket of an
empty device collection (percentage 0), and the formula applied to the
no_info bucket of a one-device collection with no update records. -/
theorem C5_percentage_guard_witness :
    (UpdateStatusStats.mk "up_to_date" 0 (pct 0 0)).percentage = 0 ∧
    (UpdateStatusStats.mk "no_info" 1 (pct 1 1)).percentage =
      if 0 < [c5Device].length
        then round2 (((UpdateStatusStats.mk "no_info" 1 (pct 1 1)).count : ℚ) /
          ([c5Device].length : ℚ) * 100) else 0 :=
  ⟨C5_percentage_guard.2.2.1 [] (UpdateStatusStats.mk "up_to_date" 0 (pct 0 0))
      (by simp [status_stats, count_status]),
    C5_percentage_guard.1 [c5Device] [] (UpdateStatusStats.mk "no_info" 1 (pct 1 1))
      (by simp [status_stats, count_status, classify, updates_by_device, c5Device])⟩

/-- Program counter of one task running ensure_authenticated
(async_withsecure_client.py lines 79-83): waiting to acquire the asyncio
lock, holding the lock about to run the validity check, holding the lock
awaiting authenticate, or finished. -/
inductive TaskPC where
  | waiting
  | checking
  | authing
  | finished
deriving DecidableEq

/-- Global state of n concurrent ensure_authenticated calls sharing one
client: valid is the value of is_token_valid at the current (frozen)
instant, authCount the number of authenticate calls performed so far,
lock the holder of the client lock, pcs the program counter of each
task. -/
structure EnsureState (n : Nat) where
  valid : Bool
  authCount : Nat
  lock : Option (Fin n)
  pcs : Fin n → TaskPC

/-- Interleaving semantics of concurrent ensure_authenticated calls: a
task may acquire the lock only while it is free; the holder checks
is_token_valid and either releases and finishes (token valid) or
proceeds to await authenticate (token invalid); a completed authenticate
stores a fresh token that is valid at the current instant (its
expires_in, 3600 by default, exceeds the 60 second margin), increments
the count of authentication calls, and releases the lock. Tasks suspend
only at these await points, matching the cooperative asyncio model; the
synchronous WithSecureClient runs each call without suspension, which is
the schedule executing the three steps of one task consecutively. -/
inductive EnsureStep {n : Nat} : EnsureState n → EnsureState n → Prop where
  | acquire (s : EnsureState n) (i : Fin n) :
      s.lock = none → s.pcs i = .waiting →
      EnsureStep s { s with lock := some i, pcs := Function.update s.pcs i TaskPC.checking }
  | checkValid (s : EnsureState n) (i : Fin n) :
      s.lock = some i → s.pcs i = .checking → s.valid = true →
      EnsureStep s { s with lock := none, pcs := Function.update s.pcs i TaskPC.finished }
  | checkInvalid (s : EnsureState n) (i : Fin n) :
      s.lock = some i → s.pcs i = .checking → s.valid = false →
      EnsureStep s { s with pcs := Function.update s.pcs i TaskPC.authing }
  | authDone (s : EnsureState n) (i : Fin n) :
      s.lock = some i → s.pcs i = .authing →
      EnsureStep s
        { valid := true, authCount := s.authCount + 1, lock := none,
          pcs := Function.update s.pcs i TaskPC.finished }

/-- Initial state: n tasks about to call ensure_authenticated, the lock
free, no authentication performed yet, token validity v0. -/
def initEnsure (n : Nat) (v0 : Bool) : EnsureState n :=
  { valid := v0, authCount := 0, lock := none, pcs := fun _ => TaskPC.waiting }

/-- Inductive invariant of the ensure_authenticated system: the
authentication count follows the token validity, only the lock holder is
inside the critical section, finished tasks imply a valid token, and a
task awaiting authenticate implies an invalid token. -/
def EnsureInv (v0 : Bool) {n : Nat} (s : EnsureState n) : Prop :=
  (s.valid = false → v0 = false ∧ s.authCount = 0) ∧
  (s.valid = true → s.authCount = (if v0 then 0 else 1)) ∧
  (∀ j, s.pcs j = .checking ∨ s.pcs j = .authing → s.lock = some j) ∧
  (∀ j, s.pcs j = .finished → s.valid = true) ∧
  (∀ j, s.pcs j = .authing → s.valid = false)

theorem ensureInv_init (n : Nat) (v0 : Bool) : EnsureInv v0 (initEnsure n v0) := by
  refine ⟨fun h => ⟨h, rfl⟩, ?_, ?_, ?_, ?_⟩
  · intro h
    simp [initEnsure] at h
    simp [initEnsure, h]
  · intro j hj
    simp [initEnsure] at hj
  · intro j hj
    simp [initEnsure] at hj
  · intro j hj
    simp [initEnsure] at hj

theorem ensureInv_step {n : Nat} {v0 : Bool} {s t : EnsureState n}
    (hInv : EnsureInv v0 s) (hstep : EnsureStep s t) : EnsureInv v0 t := by
  obtain ⟨h1, h2, h3, h4, h5⟩ := hInv
  cases hstep with
  | acquire i hlock hpc =>
    refine ⟨h1, h2, ?_, ?_, ?_⟩
    · intro j hj
      dsimp only at hj ⊢
      by_cases hji : j = i
      · subst hji; rfl
      · rw [Function.update_noteq hji] at hj
        have hl := h3 j hj
        rw [hlock] at hl
        exact absurd hl (by simp)
    · intro j hj
      dsimp only at hj ⊢
      by_cases hji : j = i
      · subst hji
        rw [Function.update_same] at hj
        simp at hj
      · rw [Function.update_noteq hji] at hj
        exact h4 j hj
    · intro j hj
      dsimp only at hj ⊢
      by_cases hji : j = i
      · subst hji
        rw [Function.update_same] at hj
        simp at hj
      · rw [Function.update_noteq hji] at hj
        have hl := h3 j (Or.inr hj)
        rw [hlock] at hl
        exact absurd hl (by simp)
  | checkValid i hlock hpc hvalid =>
    refine ⟨?_, h2, ?_, ?_, ?_⟩
    · intro hf
      dsimp only at hf
      rw [hvalid] at hf
      simp at hf
    · intro j hj
      dsimp only at hj ⊢
      by_cases hji : j = i
      · subst hji
        rw [Function.update_same] at hj
        rcases hj with h | h <;> simp at h
      · rw [Function.update_noteq hji] at hj
        have hl := h3 j hj
        rw [hlock] at hl
        injection hl with hl2
        exact absurd hl2.symm hji
    · intro j _
      exact hvalid
    · intro j hj
      dsimp only at hj ⊢
      by_cases hji : j = i
      · subst hji
        rw [Function.update_same] at hj
        simp at hj
      · rw [Function.update_noteq hji] at hj
        have hv := h5 j hj
        rw [hv] at hvalid
        simp at hvalid
  | checkInvalid i hlock hpc hvalid =>
    refine ⟨fun _ => h1 hvalid, ?_, ?_, ?_, ?_⟩
    · intro hT
      dsimp only at hT
      rw [hvalid] at hT
      simp at hT
    · intro j hj
      dsimp only at hj ⊢
      by_cases hji : j = i
      · subst hji; exact hlock
      · rw [Function.update_noteq hji] at hj
        exact h3 j hj
    · intro j hj
      dsimp only at hj ⊢
      by_cases hji : j = i
      · subst hji
        rw [Function.update_same] at hj
        simp at hj
      · rw [Function.update_noteq hji] at hj
        have hv := h4 j hj
        rw [hv] at hvalid
        simp at hvalid
    · intro j hj
      dsimp only at hj ⊢
      by_cases hji : j = i
      · exact hvalid
      · rw [Function.update_noteq hji] at hj
        exact h5 j hj
  | authDone i hlock hpc =>
    have hval := h5 i hpc
    obtain ⟨hv0, hcnt⟩ := h1 hval
    refine ⟨?_, ?_, ?_, fun j _ => rfl, ?_⟩
    · intro hf
      dsimp only at hf
      simp at hf
    · intro _
      dsimp only
      simp [hv0, hcnt]
    · intro j hj
      dsimp only at hj ⊢
      by_cases hji : j = i
      · subst hji
        rw [Function.update_same] at hj
        rcases hj with h | h <;> simp at h
      · rw [Function.update_noteq hji] at hj
        have hl := h3 j hj
        rw [hlock] at hl
        injection hl with hl2
        exact absurd hl2.symm hji
    · intro j hj
      dsimp only at hj ⊢
      by_cases hji : j = i
      · subst hji
        rw [Function.update_same] at hj
        simp at hj
      · rw [Function.update_noteq hji] at hj
        have hl := h3 j (Or.inr hj)
        rw [hlock] at hl
        injection hl with hl2
        exact absurd hl2.symm hji

theorem ensureInv_reach {n : Nat} {v0 : Bool} {s : EnsureState n}
    (h : Relation.ReflTransGen EnsureStep (initEnsure n v0) s) : EnsureInv v0 s := by
  induction h with
  | refl => exact ensureInv_init n v0
  | tail _ hstep ih => exact ensureInv_step ih hstep

/-- C6: in every interleaved execution of N concurrent
ensure_authenticated calls, when all calls have finished, exactly one
authentication was performed when no valid token existed initially, and
none when a valid token existed; moreover while some task is awaiting
authenticate, no other task is inside the lock-protected section at
all. -/
theorem C6_single_admission :
    (∀ (n : Nat) (v0 : Bool) (s : EnsureState n),
      Relation.ReflTransGen EnsureStep (initEnsure n v0) s →
      0 < n → (∀ i, s.pcs i = .finished) →
      s.authCount = if v0 then 0 else 1) ∧
    (∀ (n : Nat) (v0 : Bool) (s : EnsureState n),
      Relation.ReflTransGen EnsureStep (initEnsure n v0) s →
      ∀ i, s.pcs i = .authing → ∀ j, j ≠ i →
        s.pcs j ≠ .authing ∧ s.pcs j ≠ .checking) := by
  constructor
  · intro n v0 s hreach hn hfin
    obtain ⟨_, h2, _, h4, _⟩ := ensureInv_reach hreach
    exact h2 (h4 ⟨0, hn⟩ (hfin ⟨0, hn⟩))
  · intro n v0 s hreach i hi j hji
    obtain ⟨_, _, h3, _, _⟩ := ensureInv_reach hreach
    have hli := h3 i (Or.inr hi)
    constructor
    · intro hj
      have hlj := h3 j (Or.inr hj)
      rw [hli] at hlj
      injection hlj with h
      exact hji h.symm
    · intro hj
      have hlj := h3 j (Or.inl hj)
      rw [hli] at hlj
      injection hlj with h
      exact hji h.symm

/-- Intermediate states of the concrete single-task execution used as the
C6 witness. -/
def ensA : EnsureState 1 := initEnsure 1 false

def ensB : EnsureState 1 :=
  { ensA with lock := some 0, pcs := Function.update ensA.pcs 0 TaskPC.checking }

def ensC : EnsureState 1 :=
  { ensB with pcs := Function.update ensB.pcs 0 TaskPC.authing }

def ensD : EnsureState 1 :=
  { valid := true, authCount := ensC.authCount + 1, lock := none,
    pcs := Function.update ensC.pcs 0 TaskPC.finished }

/-- C6, witness: the single-admission theorem applied to the concrete
execution acquire, check (invalid), authenticate of one task starting
without a valid token; the terminal state performed exactly one
authentication. -/
theorem C6_single_admission_witness :
    ensD.authCount = if false then 0 else 1 :=
  C6_single_admission.1 1 false ensD
    (Relation.ReflTransGen.head (EnsureStep.acquire ensA 0 rfl rfl)
      (Relation.ReflTransGen.head (EnsureStep.checkInvalid ensB 0 rfl rfl rfl)
        (Relation.ReflTransGen.head (EnsureStep.authDone ensC 0 rfl rfl)
          Relation.ReflTransGen.refl)))
    (by decide) (by decide)

end WithSecure
